import Mathlib

/-!
Verification development for the history-analysis core: a shallow embedding of
`src/analysis/trajectory.py` (trajectory analyzer) and
`src/analysis/coordination.py` (thrash detector), together with theorems about
the embedded definitions.

Modelling conventions:
* Python floats are modelled as exact rationals (`ℚ`).  All thresholds and the
  clock constant are exact decimals, and every comparison exercised below is
  far from any binary-rounding boundary.
* External collaborators (git content resolution, the file-type classifier,
  the touch/commit queries) are passed in as function parameters: the spec
  declares them out of scope and the analysis modules only consume them.
* Fallible content resolution is an `Option`-returning resolver; the Python
  `try/except RuntimeError` skip corresponds to the `none` case.
-/

set_option maxRecDepth 8000

namespace CCC

/-! ### EditDistanceEngine (trajectory.py, lines 21-34) -/

/-- Python `str.splitlines` on the newline forms occurring in git text
content: splits on `"\n"`, `"\r\n"` and `"\r"`, and drops a trailing empty
piece (so `"x\n".splitlines() == ["x"]` and `"".splitlines() == []`).
Accumulator holds the current line reversed. -/
def splitlinesAux : List Char → List Char → List (List Char)
  | [], acc => if acc.isEmpty then [] else [acc.reverse]
  | '\r' :: '\n' :: rest, acc => acc.reverse :: splitlinesAux rest []
  | '\r' :: rest, acc => acc.reverse :: splitlinesAux rest []
  | '\n' :: rest, acc => acc.reverse :: splitlinesAux rest []
  | c :: rest, acc => splitlinesAux rest (c :: acc)

def splitlines (s : String) : List String :=
  (splitlinesAux s.data []).map (fun l => String.mk l)

/-- Modelled from the spec: the line-matching count of
`difflib.SequenceMatcher` (Python standard library, not repository code).
Spec 4.1: "`M` is the number of matched lines under a
longest-common-subsequence-style alignment". -/
def lcsLen : List String → List String → Nat
  | [], _ => 0
  | _ :: _, [] => 0
  | a :: as, b :: bs =>
    if a = b then lcsLen as bs + 1
    else max (lcsLen (a :: as) bs) (lcsLen as (b :: bs))
termination_by l₁ l₂ => l₁.length + l₂.length
decreasing_by all_goals (simp only [List.length_cons]; omega)

/-- Modelled from the spec: `SequenceMatcher(...).ratio()`, "a similarity
ratio defined as `2 * M / T` ... `T` is the total number of lines in both
sequences combined" (spec 4.1). -/
def seqRatio (a b : List String) : ℚ :=
  2 * (lcsLen a b : ℚ) / ((a.length : ℚ) + (b.length : ℚ))

/-- trajectory.py, `normalized_edit_distance` (lines 21-34).  Python string
truthiness: `not a` means `a == ""`. -/
def normalized_edit_distance (a b : String) : ℚ :=
  if a = b then 0
  else if a = "" ∧ b = "" then 0
  else if a = "" ∨ b = "" then 1
  else 1 - seqRatio (splitlines a) (splitlines b)

/-! ### Sampling (trajectory.py, lines 85-91) -/

/-- Python slicing `l[::step]` for `step ≥ 1`, with a count-down to the next
kept index: element `i` is kept exactly when `i % step = 0`. -/
def takeEveryAux {α : Type} (step : Nat) : List α → Nat → List α
  | [], _ => []
  | a :: rest, 0 => a :: takeEveryAux step rest (step - 1)
  | _ :: rest, k + 1 => takeEveryAux step rest k

/-- Python slicing `l[::step]` for `step ≥ 1`: every `step`-th element
starting from the head. -/
def takeEvery {α : Type} (step : Nat) (l : List α) : List α :=
  takeEveryAux step l 0

/-- trajectory.py lines 86-91: if more than 50 commits touch the file,
subsample at stride `len // 50` and force-include the final commit if the
stride dropped it.  (`l[-1]` is only read in the `> 50` branch, where the
list is nonempty; the `none` arm is unreachable there.) -/
def sampleCommits {α : Type} [BEq α] (l : List α) : List α :=
  if l.length > 50 then
    let step := l.length / 50
    let sampled := takeEvery step l
    match l.getLast? with
    | some last => if sampled.contains last then sampled else sampled ++ [last]
    | none => sampled
  else l

/-! ### Trajectory metrics and classification (trajectory.py, lines 107-129) -/

/-- Line 108: `deltas[k] = distances[k+1] - distances[k]`. -/
def deltas (distances : List ℚ) : List ℚ :=
  (distances.zip distances.tail).map (fun p => p.2 - p.1)

/-- Lines 110-112.  `monotonic_decreases / total_transitions`, `0` when there
are no transitions. -/
def decrease_ratio (distances : List ℚ) : ℚ :=
  let ds := deltas distances
  if ds.length ≠ 0 then
    ((ds.filter (fun d => decide (d < 0))).length : ℚ) / (ds.length : ℚ)
  else 0

/-- Lines 115-118: count of sign flips between consecutive deltas
(`deltas[k-1]` is the first pair component, `deltas[k]` the second). -/
def directionChanges (ds : List ℚ) : Nat :=
  ((ds.zip ds.tail).filter
    (fun p => decide ((0 < p.2 ∧ p.1 < 0) ∨ (p.2 < 0 ∧ 0 < p.1)))).length

/-- Line 119: `direction_changes / (len(deltas) - 1)` when there are at least
two deltas, else `0`. -/
def oscillation_rate (distances : List ℚ) : ℚ :=
  let ds := deltas distances
  if ds.length > 1 then
    (directionChanges ds : ℚ) / ((ds.length : ℚ) - 1)
  else 0

/-- Line 121: `distances[0] - distances[-1]`.  The callers guarantee a
nonempty list (at least 3 trajectory points); the defaults are never hit
there. -/
def net_progress (distances : List ℚ) : ℚ :=
  distances.headD 0 - distances.getLastD 0

inductive Classification : Type
  | learning
  | thrashing
  | mixed
deriving DecidableEq

/-- Lines 124-129: the ordered decision table, first match wins. -/
def classifyMetrics (dr osc np : ℚ) : Classification :=
  if dr > 0.6 ∧ np > 0.1 then Classification.learning
  else if osc > 0.5 ∨ np ≤ 0.1 then Classification.thrashing
  else Classification.mixed

/-! ### TrajectoryAnalyzer (trajectory.py, lines 37-141) -/

/-- The external ContentResolver (`file_at_commit`): snapshot reference and
path to full text, `none` for the `RuntimeError` failure case. -/
abbrev Resolver := String → String → Option String

structure FileResult : Type where
  trajectory : List (String × Nat × ℚ)
  classification : Classification
  decrease_ratio : ℚ
  oscillation_rate : ℚ
  net_progress : ℚ
  mod_count : Nat
  ftype : String
deriving DecidableEq

/-- Lines 94-101: `for j, chash in enumerate(commit_hashes)`, resolving each
sampled commit and skipping (only) the points whose resolution fails.
`j` is the running enumeration index. -/
def trajectoryOf (resolve : Resolver) (fpath final_content : String) :
    List String → Nat → List (String × Nat × ℚ)
  | [], _ => []
  | chash :: rest, j =>
    match resolve chash fpath with
    | some content =>
        (chash, j, normalized_edit_distance content final_content) ::
          trajectoryOf resolve fpath final_content rest (j + 1)
    | none => trajectoryOf resolve fpath final_content rest (j + 1)

/-- Lines 74-139, the per-file body of the loop: resolve the final content
(failure excludes the file), require at least 3 touching commits, sample,
build the trajectory, require at least 3 resolved points, then attach the
derived metrics and classification.  `classify` is the external
`classify_file` collaborator. -/
def analyzeFile (classify : String → String) (resolve : Resolver)
    (fpath : String) (mod_count : Nat) (commit_hashes : List String) :
    Option FileResult :=
  match resolve "HEAD" fpath with
  | none => none
  | some final_content =>
    if commit_hashes.length < 3 then none
    else
      let sampled := sampleCommits commit_hashes
      let traj := trajectoryOf resolve fpath final_content sampled 0
      if traj.length < 3 then none
      else
        let distances := traj.map (fun t => t.2.2)
        some {
          trajectory := traj
          classification := classifyMetrics (decrease_ratio distances)
            (oscillation_rate distances) (net_progress distances)
          decrease_ratio := decrease_ratio distances
          oscillation_rate := oscillation_rate distances
          net_progress := net_progress distances
          mod_count := mod_count
          ftype := classify fpath }

/-- Lines 60-65: keep rows whose path exists at HEAD with at least 3
modifications; stop once `top_n` are collected (the check runs after the
append, exactly as in the Python loop). -/
def selectTargets (head_files : List String) (top_n : Nat) :
    List (String × Nat) → List (String × Nat) → List (String × Nat)
  | [], acc => acc
  | (fpath, mods) :: rest, acc =>
    let acc' := if head_files.contains fpath ∧ mods ≥ 3
                then acc ++ [(fpath, mods)] else acc
    if acc'.length ≥ top_n then acc'
    else selectTargets head_files top_n rest acc'

/-- Lines 37-141, `run_trajectory_analysis`.  `rows` is the DB query result
(path, modification count) ordered by count descending; `touching` is the
external `commits_touching_file`; the result dict (unique keys, insertion
order) is an association list. -/
def run_trajectory_analysis (classify : String → String) (resolve : Resolver)
    (head_files : List String) (rows : List (String × Nat))
    (touching : String → List String) (top_n : Nat) :
    List (String × FileResult) :=
  let targets := selectTargets head_files top_n rows []
  targets.filterMap (fun fm =>
    (analyzeFile classify resolve fm.1 fm.2 (touching fm.1)).map
      (fun r => (fm.1, r)))

/-! ### ThrashDetector (coordination.py, lines 17-88) -/

/-- One per-path touch dict (coordination.py lines 32-39). -/
structure Touch : Type where
  date : String
  hash : String
  insertions : Int
  deletions : Int
  commit_id : Int
deriving DecidableEq

def THRASH_WINDOW_MINUTES : ℚ := 30
def RAPID_OVERWRITE_MINUTES : ℚ := 10
def rapid_overwrite_ratio : ℚ := 0.5

/-- Lines 52-53: `approx_minutes = commit_delta * (14 * 24 * 60 / 3982)`. -/
def approxMinutes (prev curr : Touch) : ℚ :=
  ((curr.commit_id - prev.commit_id : Int) : ℚ) * (14 * 24 * 60 / 3982)

/-- Line 55: the thrash-incident window test on the estimated minutes. -/
def thrashCond (m : ℚ) : Bool := decide (m < THRASH_WINDOW_MINUTES)

/-- Lines 70-72: the rapid-overwrite refinement test. -/
def rapidCond (m : ℚ) (prev_insertions curr_deletions : Int) : Bool :=
  decide (m < RAPID_OVERWRITE_MINUTES) && decide (0 < prev_insertions) &&
    decide (rapid_overwrite_ratio * (prev_insertions : ℚ) < (curr_deletions : ℚ))

/-- The dict appended at lines 56-66. -/
structure ThrashIncident : Type where
  file_path : String
  ftype : String
  prev_hash : String
  curr_hash : String
  prev_commit_id : Int
  curr_commit_id : Int
  delta_minutes : ℚ
  prev_insertions : Int
  curr_deletions : Int
deriving DecidableEq

/-- The dict appended at lines 73-81. -/
structure RapidOverwrite : Type where
  file_path : String
  ftype : String
  prev_hash : String
  curr_hash : String
  delta_minutes : ℚ
  prev_insertions : Int
  curr_deletions : Int
deriving DecidableEq

def mkIncident (classify : String → String) (fpath : String)
    (prev curr : Touch) : ThrashIncident :=
  { file_path := fpath
    ftype := classify fpath
    prev_hash := prev.hash
    curr_hash := curr.hash
    prev_commit_id := prev.commit_id
    curr_commit_id := curr.commit_id
    delta_minutes := approxMinutes prev curr
    prev_insertions := prev.insertions
    curr_deletions := curr.deletions }

def mkRapid (classify : String → String) (fpath : String)
    (prev curr : Touch) : RapidOverwrite :=
  { file_path := fpath
    ftype := classify fpath
    prev_hash := prev.hash
    curr_hash := curr.hash
    delta_minutes := approxMinutes prev curr
    prev_insertions := prev.insertions
    curr_deletions := curr.deletions }

/-- The three accumulators of the detection loop (lines 41-43):
`thrash_incidents`, `rapid_overwrites`, and the `defaultdict(int)` of
per-path counts. -/
@[ext]
structure CoordState : Type where
  thrash_incidents : List ThrashIncident
  rapid_overwrites : List RapidOverwrite
  file_thrash_counts : String → Nat

/-- Lines 47-81, one iteration of the inner loop over the consecutive pair
`(prev, curr)`. -/
def coordStep (classify : String → String) (fpath : String)
    (st : CoordState) (pc : Touch × Touch) : CoordState :=
  let prev := pc.1
  let curr := pc.2
  let m := approxMinutes prev curr
  if thrashCond m then
    let st1 : CoordState :=
      { thrash_incidents :=
          st.thrash_incidents ++ [mkIncident classify fpath prev curr]
        rapid_overwrites := st.rapid_overwrites
        file_thrash_counts := fun p =>
          if p = fpath then st.file_thrash_counts p + 1
          else st.file_thrash_counts p }
    if rapidCond m prev.insertions curr.deletions then
      { st1 with rapid_overwrites :=
          st1.rapid_overwrites ++ [mkRapid classify fpath prev curr] }
    else st1
  else st

/-- The consecutive pairs `(touches[i-1], touches[i])` for `i` in
`range(1, len(touches))`. -/
def pairList (touches : List Touch) : List (Touch × Touch) :=
  touches.zip touches.tail

/-- Lines 46-81: the inner loop over one path's touch list. -/
def processPath (classify : String → String) (st : CoordState)
    (fpath : String) (touches : List Touch) : CoordState :=
  (pairList touches).foldl (coordStep classify fpath) st

structure CoordResult : Type where
  thrash_incidents : List ThrashIncident
  rapid_overwrites : List RapidOverwrite
  file_thrash_counts : String → Nat
  total_file_touches : Nat

/-- Lines 17-88, `run_coordination_analysis`, starting from the grouped
per-path touch lists (`file_touches`, an insertion-ordered dict modelled as
an association list). -/
def run_coordination_analysis (classify : String → String)
    (file_touches : List (String × List Touch)) : CoordResult :=
  let st := file_touches.foldl
    (fun st e => processPath classify st e.1 e.2)
    { thrash_incidents := []
      rapid_overwrites := []
      file_thrash_counts := fun _ => 0 }
  { thrash_incidents := st.thrash_incidents
    rapid_overwrites := st.rapid_overwrites
    file_thrash_counts := st.file_thrash_counts
    total_file_touches := (file_touches.map (fun e => e.2.length)).sum }

/-! ### Closed forms for the detection loop -/

/-- The thrash incidents the loop emits for a list of consecutive pairs of
one path: exactly the pairs whose estimated gap passes the window test. -/
def thrashOfPairs (classify : String → String) (fpath : String)
    (l : List (Touch × Touch)) : List ThrashIncident :=
  (l.filter (fun pc => thrashCond (approxMinutes pc.1 pc.2))).map
    (fun pc => mkIncident classify fpath pc.1 pc.2)

/-- The rapid overwrites the loop emits for a list of consecutive pairs of
one path: the pairs passing both the window test and the refinement test. -/
def rapidsOfPairs (classify : String → String) (fpath : String)
    (l : List (Touch × Touch)) : List RapidOverwrite :=
  (l.filter (fun pc => thrashCond (approxMinutes pc.1 pc.2) &&
      rapidCond (approxMinutes pc.1 pc.2) pc.1.insertions pc.2.deletions)).map
    (fun pc => mkRapid classify fpath pc.1 pc.2)

def ftThrash (classify : String → String)
    (ft : List (String × List Touch)) : List ThrashIncident :=
  ft.flatMap (fun e => thrashOfPairs classify e.1 (pairList e.2))

def ftRapids (classify : String → String)
    (ft : List (String × List Touch)) : List RapidOverwrite :=
  ft.flatMap (fun e => rapidsOfPairs classify e.1 (pairList e.2))

def ftCounts (classify : String → String)
    (ft : List (String × List Touch)) (p : String) : Nat :=
  (ft.map (fun e =>
    if p = e.1 then (thrashOfPairs classify e.1 (pairList e.2)).length
    else 0)).sum

/-! ### Concrete fixtures used by the witness theorems -/

/-- A fixed stand-in for the external file classifier. -/
def wClassify : String → String := fun _ => "source"

/-- A touch that adds 100 lines at commit ordinal 0. -/
def wTouchA : Touch :=
  { date := "d0", hash := "h1", insertions := 100, deletions := 0
    commit_id := 0 }

/-- A touch one ordinal later (estimated gap `10080/1991 ≈ 5.06` minutes)
that deletes 60 lines. -/
def wTouchB : Touch :=
  { date := "d1", hash := "h2", insertions := 5, deletions := 60
    commit_id := 1 }

/-- A single-path touch history with one rapid-overwrite pair. -/
def wFt : List (String × List Touch) := [("a.py", [wTouchA, wTouchB])]

/-- A resolver that fails on every request. -/
def wResolveNone : Resolver := fun _ _ => none

/-- An arbitrary concrete analysis result, used to state non-membership. -/
def wResult : FileResult :=
  { trajectory := [], classification := Classification.mixed
    decrease_ratio := 0, oscillation_rate := 0, net_progress := 0
    mod_count := 0, ftype := "source" }

/-- A resolver that only resolves the final snapshot. -/
def wResolveHeadOnly : Resolver := fun c _ =>
  if c = "HEAD" then some "F" else none

/-- A resolver that resolves the final snapshot and two history points. -/
def wResolve : Resolver := fun c _ =>
  if c = "HEAD" then some "F"
  else if c = "h1" then some "A"
  else if c = "h2" then some "B"
  else none

theorem coordStep_closed (classify : String → String) (fpath : String)
    (st : CoordState) (pc : Touch × Touch) :
    coordStep classify fpath st pc =
      { thrash_incidents :=
          st.thrash_incidents ++ thrashOfPairs classify fpath [pc]
        rapid_overwrites :=
          st.rapid_overwrites ++ rapidsOfPairs classify fpath [pc]
        file_thrash_counts := fun p =>
          st.file_thrash_counts p +
            (if p = fpath then (thrashOfPairs classify fpath [pc]).length
             else 0) } := by
  cases h1 : thrashCond (approxMinutes pc.1 pc.2) with
  | false =>
    simp only [coordStep, h1, Bool.false_eq_true, if_false, thrashOfPairs,
      rapidsOfPairs, List.filter_cons, List.filter_nil, h1, Bool.false_and,
      List.map_nil, List.append_nil, List.length_nil]
    ext p
    · simp
    · simp
    · simp
  | true =>
    cases h2 : rapidCond (approxMinutes pc.1 pc.2) pc.1.insertions
        pc.2.deletions with
    | false =>
      simp only [coordStep, h1, if_true, h2, Bool.false_eq_true, if_false,
        thrashOfPairs, rapidsOfPairs, List.filter_cons, h1, h2,
        Bool.true_and, Bool.false_eq_true, if_false, if_true,
        List.filter_nil, List.map_nil, List.map_cons, List.append_nil,
        List.length_cons, List.length_nil]
      ext p
      · simp
      · simp
      · by_cases hp : p = fpath <;> simp [hp]
    | true =>
      simp only [coordStep, h1, if_true, h2, thrashOfPairs, rapidsOfPairs,
        List.filter_cons, h1, h2, Bool.true_and, if_true, List.filter_nil,
        List.map_nil, List.map_cons, List.append_nil, List.length_cons,
        List.length_nil]
      ext p
      · simp
      · simp
      · by_cases hp : p = fpath <;> simp [hp]

theorem foldPairs_closed (classify : String → String) (fpath : String) :
    ∀ (l : List (Touch × Touch)) (st : CoordState),
      l.foldl (coordStep classify fpath) st =
        { thrash_incidents :=
            st.thrash_incidents ++ thrashOfPairs classify fpath l
          rapid_overwrites :=
            st.rapid_overwrites ++ rapidsOfPairs classify fpath l
          file_thrash_counts := fun p =>
            st.file_thrash_counts p +
              (if p = fpath then (thrashOfPairs classify fpath l).length
               else 0) }
  | [], st => by
    simp only [List.foldl_nil, thrashOfPairs, rapidsOfPairs, List.filter_nil,
      List.map_nil, List.append_nil, List.length_nil]
    ext p
    · simp
    · simp
    · simp
  | pc :: rest, st => by
    rw [List.foldl_cons, coordStep_closed,
      foldPairs_closed classify fpath rest]
    have hT : thrashOfPairs classify fpath (pc :: rest) =
        thrashOfPairs classify fpath [pc] ++ thrashOfPairs classify fpath rest := by
      simp only [thrashOfPairs, List.filter_cons, List.filter_nil]
      cases h : thrashCond (approxMinutes pc.1 pc.2) <;> simp
    have hR : rapidsOfPairs classify fpath (pc :: rest) =
        rapidsOfPairs classify fpath [pc] ++ rapidsOfPairs classify fpath rest := by
      simp only [rapidsOfPairs, List.filter_cons, List.filter_nil]
      cases h : (thrashCond (approxMinutes pc.1 pc.2) &&
          rapidCond (approxMinutes pc.1 pc.2) pc.1.insertions
            pc.2.deletions) <;> simp
    rw [hT, hR]
    ext p
    · simp
    · simp
    · simp only [List.length_append]
      by_cases hp : p = fpath <;> simp [hp] <;> omega

theorem foldPaths_closed (classify : String → String) :
    ∀ (ft : List (String × List Touch)) (st : CoordState),
      ft.foldl (fun st e => processPath classify st e.1 e.2) st =
        { thrash_incidents := st.thrash_incidents ++ ftThrash classify ft
          rapid_overwrites := st.rapid_overwrites ++ ftRapids classify ft
          file_thrash_counts := fun p =>
            st.file_thrash_counts p + ftCounts classify ft p }
  | [], st => by
    simp only [List.foldl_nil, ftThrash, ftRapids, ftCounts,
      List.flatMap_nil, List.map_nil, List.sum_nil, List.append_nil]
    ext p
    · simp
    · simp
    · simp
  | e :: rest, st => by
    rw [List.foldl_cons]
    show List.foldl _ (processPath classify st e.1 e.2) rest = _
    rw [processPath, foldPairs_closed, foldPaths_closed classify rest]
    simp only [ftThrash, ftRapids, ftCounts, List.flatMap_cons, List.map_cons,
      List.sum_cons]
    ext p
    · simp
    · simp
    · simp only
      omega

theorem run_coordination_closed (classify : String → String)
    (ft : List (String × List Touch)) :
    run_coordination_analysis classify ft =
      { thrash_incidents := ftThrash classify ft
        rapid_overwrites := ftRapids classify ft
        file_thrash_counts := ftCounts classify ft
        total_file_touches := (ft.map (fun e => e.2.length)).sum } := by
  rw [run_coordination_analysis]
  rw [foldPaths_closed]
  simp

/-! ### Helper lemmas: sampling -/

theorem takeEveryAux_two_length {α : Type} :
    ∀ l : List α, (takeEveryAux 2 l 0).length = (l.length + 1) / 2 ∧
      (takeEveryAux 2 l 1).length = l.length / 2 := by
  intro l
  induction l with
  | nil => simp [takeEveryAux]
  | cons a rest ih =>
    constructor
    · simp only [takeEveryAux, List.length_cons, ih.2]
      omega
    · simpa only [takeEveryAux, List.length_cons] using ih.1

/-! ### Helper lemmas: trajectory -/

theorem trajectoryOf_congr (resolve resolve' : Resolver)
    (fpath final : String) (h : ∀ c, resolve c fpath = resolve' c fpath) :
    ∀ (l : List String) (j : Nat),
      trajectoryOf resolve fpath final l j =
        trajectoryOf resolve' fpath final l j
  | [], _ => rfl
  | ch :: rest, j => by
    simp only [trajectoryOf, h ch]
    cases resolve' ch fpath <;>
      simp [trajectoryOf_congr resolve resolve' fpath final h rest]

theorem trajectoryOf_resolves (resolve : Resolver) (fpath final : String) :
    ∀ (l : List String) (j : Nat) (e : String × Nat × ℚ),
      e ∈ trajectoryOf resolve fpath final l j →
      ∃ c, resolve e.1 fpath = some c
  | [], _, e => by simp [trajectoryOf]
  | ch :: rest, j, e => by
    simp only [trajectoryOf]
    cases hr : resolve ch fpath with
    | none => exact trajectoryOf_resolves resolve fpath final rest (j + 1) e
    | some c =>
      intro hmem
      rcases List.mem_cons.mp hmem with heq | hmem'
      · subst heq
        exact ⟨c, hr⟩
      · exact trajectoryOf_resolves resolve fpath final rest (j + 1) e hmem'

theorem trajectoryOf_mem_of_resolve (resolve : Resolver)
    (fpath final : String) :
    ∀ (l : List String) (k j : Nat) (ch c : String),
      l.get? k = some ch → resolve ch fpath = some c →
      (ch, j + k, normalized_edit_distance c final) ∈
        trajectoryOf resolve fpath final l j
  | [], k, j, ch, c => by simp
  | ch0 :: rest, 0, j, ch, c => by
    intro hget hres
    have hch : ch0 = ch := by simpa using hget
    subst hch
    simp only [trajectoryOf, hres, Nat.add_zero]
    exact List.mem_cons_self _ _
  | ch0 :: rest, k + 1, j, ch, c => by
    intro hget hres
    have hget' : rest.get? k = some ch := by simpa using hget
    have ih := trajectoryOf_mem_of_resolve resolve fpath final rest k (j + 1)
      ch c hget' hres
    have harith : j + 1 + k = j + (k + 1) := by omega
    rw [harith] at ih
    simp only [trajectoryOf]
    cases resolve ch0 fpath <;> simp [ih]

theorem analyzeFile_congr (classify : String → String)
    (resolve resolve' : Resolver) (fpath : String) (m : Nat)
    (hs : List String) (h : ∀ c, resolve c fpath = resolve' c fpath) :
    analyzeFile classify resolve fpath m hs =
      analyzeFile classify resolve' fpath m hs := by
  simp only [analyzeFile, h "HEAD"]
  cases resolve' "HEAD" fpath with
  | none => rfl
  | some final =>
    dsimp only
    rw [trajectoryOf_congr resolve resolve' fpath final h]

theorem targets_filter_ne (classify : String → String)
    (resolve resolve' : Resolver) (touching : String → List String)
    (fpath : String) (h : ∀ c p, p ≠ fpath → resolve c p = resolve' c p) :
    ∀ ts : List (String × Nat),
      ((ts.filterMap (fun fm =>
          (analyzeFile classify resolve fm.1 fm.2 (touching fm.1)).map
            (fun r => (fm.1, r)))).filter (fun e => decide (e.1 ≠ fpath))) =
      ((ts.filterMap (fun fm =>
          (analyzeFile classify resolve' fm.1 fm.2 (touching fm.1)).map
            (fun r => (fm.1, r)))).filter (fun e => decide (e.1 ≠ fpath)))
  | [] => rfl
  | fm :: rest => by
    have ih := targets_filter_ne classify resolve resolve' touching fpath h
      rest
    simp only [ne_eq, decide_not] at ih ⊢
    by_cases hfm : fm.1 = fpath
    · simp only [List.filterMap_cons]
      cases analyzeFile classify resolve fm.1 fm.2 (touching fm.1) <;>
        cases analyzeFile classify resolve' fm.1 fm.2 (touching fm.1) <;>
        simp only [Option.map_none', Option.map_some', List.filter_cons,
          hfm, decide_True, Bool.not_true, Bool.false_eq_true, if_false] <;>
        rw [ih]
    · have heq := analyzeFile_congr classify resolve resolve' fm.1 fm.2
        (touching fm.1) (fun c => h c fm.1 hfm)
      simp only [List.filterMap_cons, heq]
      cases analyzeFile classify resolve' fm.1 fm.2 (touching fm.1) <;>
        simp only [Option.map_none', Option.map_some', List.filter_cons] <;>
        rw [ih]

/-! ### Helper lemmas: counting -/

theorem count_map_eq_countP {α β : Type} [DecidableEq β] (f : α → β)
    (x : β) :
    ∀ l : List α, (l.map f).count x = l.countP (fun a => decide (f a = x))
  | [] => rfl
  | a :: l => by
    simp only [List.map_cons, List.count_cons, List.countP_cons,
      count_map_eq_countP f x l, beq_iff_eq, decide_eq_true_eq]

theorem filter_thrashOfPairs (classify : String → String) (fpath p : String)
    (l : List (Touch × Touch)) :
    ((thrashOfPairs classify fpath l).filter
        (fun i => decide (i.file_path = p))).length =
      if p = fpath then (thrashOfPairs classify fpath l).length else 0 := by
  rw [thrashOfPairs, List.filter_map]
  by_cases hp : p = fpath
  · subst hp
    simp [mkIncident, Function.comp_def]
  · have hfp : ¬ fpath = p := fun hh => hp hh.symm
    simp [mkIncident, Function.comp_def, hfp, hp]

theorem ftCounts_eq_filter_length (classify : String → String) :
    ∀ (ft : List (String × List Touch)) (p : String),
      ftCounts classify ft p =
        ((ftThrash classify ft).filter
          (fun i => decide (i.file_path = p))).length
  | [], _ => rfl
  | e :: rest, p => by
    simp only [ftCounts, ftThrash, List.map_cons, List.sum_cons,
      List.flatMap_cons, List.filter_append, List.length_append]
    rw [filter_thrashOfPairs]
    have ih := ftCounts_eq_filter_length classify rest p
    simp only [ftCounts, ftThrash] at ih
    omega

/-! ### Claim theorems -/

/-- Claim C1, counterexample: the sampling step on an ordered touch list with
120 entries keeps 61 points (stride `120 / 50 = 2` keeps 60, the forced
final point adds one), not at most 51 as claimed. -/
theorem sampling_claim_counterexample :
    (sampleCommits (List.range 120)).length = 61 ∧
      ¬ (sampleCommits (List.range 120)).length ≤ 51 := by
  have h : (sampleCommits (List.range 120)).length = 61 := by decide
  exact ⟨h, by omega⟩

/-- Claim C1, amended: for any ordered touch list with 120 entries the
sampling step (stride `floor(120/50) = 2`, then force-including the final
point if dropped) yields at most 61 sampled points, deterministically. -/
theorem sampling_120_at_most_61 {α : Type} [BEq α] (l : List α)
    (h : l.length = 120) : (sampleCommits l).length ≤ 61 := by
  have hlen : (takeEvery 2 l).length = 60 := by
    have h2 := (takeEveryAux_two_length l).1
    rw [takeEvery]
    omega
  simp only [sampleCommits, h]
  rw [if_pos (by norm_num)]
  have hdiv : (120 : Nat) / 50 = 2 := by norm_num
  rw [hdiv]
  cases l.getLast? with
  | none =>
    dsimp only
    omega
  | some last =>
    cases hc : (takeEvery 2 l).contains last <;>
      simp [hc, List.length_append, hlen]

theorem sampling_120_at_most_61_witness :
    (List.range 120).length = 120 ∧
      (sampleCommits (List.range 120)).length ≤ 61 :=
  ⟨List.length_range 120,
    sampling_120_at_most_61 (List.range 120) (List.length_range 120)⟩

/-- Claim C2: the classification is a pure function of the three scalars,
evaluated top to bottom with the first match winning, so whenever both the
Learning condition and the Thrashing condition hold numerically the result
is Learning. -/
theorem classification_overlap_learning (dr osc np : ℚ)
    (h1 : dr > 0.6 ∧ np > 0.1) (h2 : osc > 0.5 ∨ np ≤ 0.1) :
    classifyMetrics dr osc np = Classification.learning := by
  simp only [classifyMetrics, if_pos h1]

theorem classification_overlap_learning_witness :
    ((0.9 : ℚ) > 0.6 ∧ (0.5 : ℚ) > 0.1) ∧
      ((0.9 : ℚ) > 0.5 ∨ (0.5 : ℚ) ≤ 0.1) ∧
      classifyMetrics 0.9 0.9 0.5 = Classification.learning :=
  ⟨⟨by norm_num, by norm_num⟩, Or.inl (by norm_num),
    classification_overlap_learning 0.9 0.9 0.5 ⟨by norm_num, by norm_num⟩
      (Or.inl (by norm_num))⟩

/-- Claim C9: distance 0 does not imply equal texts; `"x"` and `"x\n"` are
distinct strings with equal line splits, and the edit-distance function
returns exactly 0 on them. -/
theorem distance_zero_on_distinct_strings :
    ("x" : String) ≠ "x\n" ∧ normalized_edit_distance "x" "x\n" = 0 := by
  refine ⟨by decide, ?_⟩
  simp only [normalized_edit_distance]
  rw [if_neg (by decide), if_neg (by decide), if_neg (by decide)]
  show 1 - seqRatio ["x"] ["x"] = 0
  norm_num [seqRatio, lcsLen]

/-- Claim C3: every recorded rapid overwrite corresponds to a consecutive
touch pair that is also recorded as a thrash incident, with the same path,
hashes, estimated minutes and stats. -/
theorem rapid_overwrites_subset_thrash (classify : String → String)
    (ft : List (String × List Touch)) (ro : RapidOverwrite)
    (hro : ro ∈ (run_coordination_analysis classify ft).rapid_overwrites) :
    ∃ inc ∈ (run_coordination_analysis classify ft).thrash_incidents,
      inc.file_path = ro.file_path ∧ inc.prev_hash = ro.prev_hash ∧
      inc.curr_hash = ro.curr_hash ∧ inc.delta_minutes = ro.delta_minutes ∧
      inc.prev_insertions = ro.prev_insertions ∧
      inc.curr_deletions = ro.curr_deletions := by
  rw [run_coordination_closed] at hro ⊢
  dsimp only at hro ⊢
  rw [ftRapids] at hro
  rcases List.mem_flatMap.mp hro with ⟨e, he, hro2⟩
  rw [rapidsOfPairs] at hro2
  rcases List.mem_map.mp hro2 with ⟨pc, hpcmem, hmk⟩
  rcases List.mem_filter.mp hpcmem with ⟨hpc, hcond⟩
  have hthrash : thrashCond (approxMinutes pc.1 pc.2) = true := by
    have hsplit := hcond
    rw [Bool.and_eq_true] at hsplit
    exact hsplit.1
  refine ⟨mkIncident classify e.1 pc.1 pc.2, ?_, ?_⟩
  · rw [ftThrash]
    refine List.mem_flatMap.mpr ⟨e, he, ?_⟩
    rw [thrashOfPairs]
    exact List.mem_map.mpr ⟨pc, List.mem_filter.mpr ⟨hpc, hthrash⟩, rfl⟩
  · rw [← hmk]
    simp [mkIncident, mkRapid]

theorem rapid_overwrites_subset_thrash_witness :
    (mkRapid wClassify "a.py" wTouchA wTouchB ∈
        (run_coordination_analysis wClassify wFt).rapid_overwrites) ∧
      ∃ inc ∈ (run_coordination_analysis wClassify wFt).thrash_incidents,
        inc.file_path = (mkRapid wClassify "a.py" wTouchA wTouchB).file_path ∧
        inc.prev_hash = (mkRapid wClassify "a.py" wTouchA wTouchB).prev_hash ∧
        inc.curr_hash = (mkRapid wClassify "a.py" wTouchA wTouchB).curr_hash ∧
        inc.delta_minutes =
          (mkRapid wClassify "a.py" wTouchA wTouchB).delta_minutes ∧
        inc.prev_insertions =
          (mkRapid wClassify "a.py" wTouchA wTouchB).prev_insertions ∧
        inc.curr_deletions =
          (mkRapid wClassify "a.py" wTouchA wTouchB).curr_deletions := by
  have hro : mkRapid wClassify "a.py" wTouchA wTouchB ∈
      (run_coordination_analysis wClassify wFt).rapid_overwrites := by
    rw [run_coordination_closed]
    dsimp only
    rw [wFt, ftRapids]
    refine List.mem_flatMap.mpr ⟨("a.py", [wTouchA, wTouchB]),
      List.mem_singleton.mpr rfl, ?_⟩
    rw [rapidsOfPairs]
    refine List.mem_map.mpr ⟨(wTouchA, wTouchB), ?_, rfl⟩
    refine List.mem_filter.mpr ⟨?_, ?_⟩
    · show (wTouchA, wTouchB) ∈ pairList [wTouchA, wTouchB]
      simp [pairList]
    · norm_num [thrashCond, rapidCond, approxMinutes, wTouchA, wTouchB,
        THRASH_WINDOW_MINUTES, RAPID_OVERWRITE_MINUTES, rapid_overwrite_ratio]
  exact ⟨hro, rapid_overwrites_subset_thrash wClassify wFt _ hro⟩

/-- Lines 70-72 as a proposition: the rapid-overwrite test holds exactly
when the estimated gap is under 10 minutes, the previous touch inserted
something, and the current touch deleted more than half of it. -/
theorem rapidCond_eq_true_iff (m : ℚ) (i d : Int) :
    rapidCond m i d = true ↔
      (m < 10 ∧ 0 < i ∧ (0.5 : ℚ) * (i : ℚ) < (d : ℚ)) := by
  simp [rapidCond, RAPID_OVERWRITE_MINUTES, rapid_overwrite_ratio, and_assoc]

/-- Claim C4: a consecutive pair qualifying as a thrash incident is recorded
as a rapid overwrite iff its estimated gap is strictly under 10 minutes,
`prev.insertions > 0` and `curr.deletions > 0.5 * prev.insertions`; and the
window tests hold at an estimated gap of 4 minutes with insertions 100 and
deletions 60 (the hardcoded clock only reaches multiples of `10080/1991`
minutes, so the 4-minute instance is stated on the window tests
themselves). -/
theorem rapid_overwrite_iff (classify : String → String) (p : String)
    (t1 t2 : Touch) (hthrash : thrashCond (approxMinutes t1 t2) = true) :
    ((run_coordination_analysis classify [(p, [t1, t2])]).rapid_overwrites =
      if approxMinutes t1 t2 < 10 ∧ 0 < t1.insertions ∧
         (0.5 : ℚ) * (t1.insertions : ℚ) < (t2.deletions : ℚ)
      then [mkRapid classify p t1 t2] else [])
    ∧ thrashCond 4 = true ∧ rapidCond 4 100 60 = true := by
  refine ⟨?_, by norm_num [thrashCond, THRASH_WINDOW_MINUTES],
    (rapidCond_eq_true_iff 4 100 60).mpr (by norm_num)⟩
  rw [run_coordination_closed]
  dsimp only
  rw [ftRapids]
  simp only [List.flatMap_cons, List.flatMap_nil, List.append_nil]
  rw [rapidsOfPairs]
  have hpl : pairList [t1, t2] = [(t1, t2)] := by simp [pairList]
  rw [hpl]
  by_cases hc : approxMinutes t1 t2 < 10 ∧ 0 < t1.insertions ∧
      (0.5 : ℚ) * (t1.insertions : ℚ) < (t2.deletions : ℚ)
  · rw [if_pos hc]
    have hr : rapidCond (approxMinutes t1 t2) t1.insertions t2.deletions =
        true := (rapidCond_eq_true_iff _ _ _).mpr hc
    simp [List.filter_cons, hthrash, hr]
  · rw [if_neg hc]
    have hr : rapidCond (approxMinutes t1 t2) t1.insertions t2.deletions =
        false := by
      cases hval : rapidCond (approxMinutes t1 t2) t1.insertions
          t2.deletions with
      | false => rfl
      | true => exact absurd ((rapidCond_eq_true_iff _ _ _).mp hval) hc
    simp [List.filter_cons, hr]

theorem rapid_overwrite_iff_witness :
    thrashCond (approxMinutes wTouchA wTouchB) = true ∧
    ((run_coordination_analysis wClassify
        [("a.py", [wTouchA, wTouchB])]).rapid_overwrites =
      if approxMinutes wTouchA wTouchB < 10 ∧ 0 < wTouchA.insertions ∧
         (0.5 : ℚ) * (wTouchA.insertions : ℚ) < (wTouchB.deletions : ℚ)
      then [mkRapid wClassify "a.py" wTouchA wTouchB] else []) ∧
    thrashCond 4 = true ∧ rapidCond 4 100 60 = true := by
  have hthrash : thrashCond (approxMinutes wTouchA wTouchB) = true := by
    norm_num [thrashCond, approxMinutes, wTouchA, wTouchB,
      THRASH_WINDOW_MINUTES]
  have T := rapid_overwrite_iff wClassify "a.py" wTouchA wTouchB hthrash
  exact ⟨hthrash, T.1, T.2.1, T.2.2⟩

/-- Claim C5: for every consecutive touch pair of every path, a thrash
incident is recorded exactly when the estimated elapsed time is strictly
below 30 minutes; an estimated gap of exactly 30 minutes fails the window
test, while 29.999 minutes passes it. -/
theorem thrash_window_strict (classify : String → String)
    (ft : List (String × List Touch)) :
    ((run_coordination_analysis classify ft).thrash_incidents =
      ft.flatMap (fun e =>
        (((pairList e.2).filter
            (fun pc => decide (approxMinutes pc.1 pc.2 < 30))).map
          (fun pc => mkIncident classify e.1 pc.1 pc.2))))
    ∧ thrashCond 30 = false ∧ thrashCond 29.999 = true := by
  refine ⟨?_, by norm_num [thrashCond, THRASH_WINDOW_MINUTES],
    by norm_num [thrashCond, THRASH_WINDOW_MINUTES]⟩
  rw [run_coordination_closed]
  rfl

/-- Claim C10: the per-path thrash counters agree with the incident list:
each path's counter equals the number of incidents recorded for it, and the
counters summed over the paths that occur in the incident list give the
total number of incidents. -/
theorem thrash_counts_consistent (classify : String → String)
    (ft : List (String × List Touch)) :
    (∀ p, (run_coordination_analysis classify ft).file_thrash_counts p =
        (((run_coordination_analysis classify ft).thrash_incidents).filter
          (fun i => decide (i.file_path = p))).length)
    ∧ ((((run_coordination_analysis classify ft).thrash_incidents.map
          (fun i => i.file_path)).dedup.map
        (fun p =>
          (run_coordination_analysis classify ft).file_thrash_counts p)).sum =
      (run_coordination_analysis classify ft).thrash_incidents.length) := by
  have h1 : ∀ p, (run_coordination_analysis classify ft).file_thrash_counts p =
      (((run_coordination_analysis classify ft).thrash_incidents).filter
        (fun i => decide (i.file_path = p))).length := by
    intro p
    rw [run_coordination_closed]
    exact ftCounts_eq_filter_length classify ft p
  refine ⟨h1, ?_⟩
  have h2 : ∀ p, (run_coordination_analysis classify ft).file_thrash_counts p =
      ((run_coordination_analysis classify ft).thrash_incidents.map
        (fun i => i.file_path)).count p := by
    intro p
    rw [h1 p]
    exact ((count_map_eq_countP (fun i : ThrashIncident => i.file_path) p
        _).trans (List.countP_eq_length_filter _ _)).symm
  rw [List.map_congr_left (fun p _ => h2 p)]
  rw [List.sum_map_count_dedup_eq_length]
  exact List.length_map _ _

/-- Claim C6: the oscillation rate is the number of sign changes between
consecutive deltas divided by the number of delta-pairs, and 0 with fewer
than 2 deltas; distances `[0.2, 0.6, 0.1, 0.5]` give deltas
`[0.4, -0.5, 0.4]`, oscillation rate 1, and classification Thrashing. -/
theorem oscillation_rate_spec (distances : List ℚ) :
    (oscillation_rate distances =
      if 2 ≤ (deltas distances).length then
        (directionChanges (deltas distances) : ℚ) /
          (((deltas distances).zip (deltas distances).tail).length : ℚ)
      else 0)
    ∧ deltas [0.2, 0.6, 0.1, 0.5] = [0.4, -0.5, 0.4]
    ∧ oscillation_rate [0.2, 0.6, 0.1, 0.5] = 1
    ∧ classifyMetrics (decrease_ratio [0.2, 0.6, 0.1, 0.5])
        (oscillation_rate [0.2, 0.6, 0.1, 0.5])
        (net_progress [0.2, 0.6, 0.1, 0.5]) = Classification.thrashing := by
  have hdel : deltas [(0.2 : ℚ), 0.6, 0.1, 0.5] = [0.4, -0.5, 0.4] := by
    simp only [deltas, List.tail_cons, List.zip_cons_cons, List.zip_nil_right,
      List.map_cons, List.map_nil]
    norm_num
  have hosc : oscillation_rate [(0.2 : ℚ), 0.6, 0.1, 0.5] = 1 := by
    simp only [oscillation_rate, hdel]
    norm_num [directionChanges, List.filter_cons]
  have hdr : decrease_ratio [(0.2 : ℚ), 0.6, 0.1, 0.5] = 1 / 3 := by
    simp only [decrease_ratio, hdel]
    norm_num [List.filter_cons]
  have hnp : net_progress [(0.2 : ℚ), 0.6, 0.1, 0.5] = -(0.3 : ℚ) := by
    simp only [net_progress]
    norm_num [List.getLastD]
  refine ⟨?_, hdel, hosc, ?_⟩
  · simp only [oscillation_rate]
    by_cases hlen : (deltas distances).length > 1
    · rw [if_pos hlen, if_pos (by omega)]
      have hzip : (((deltas distances).zip
          (deltas distances).tail).length : ℚ) =
          ((deltas distances).length : ℚ) - 1 := by
        rw [List.length_zip, List.length_tail]
        have hmin : min (deltas distances).length
            ((deltas distances).length - 1) =
            (deltas distances).length - 1 := by omega
        rw [hmin, Nat.cast_sub (by omega), Nat.cast_one]
      rw [hzip]
    · rw [if_neg hlen, if_neg (by omega)]
  · rw [hdr, hosc, hnp]
    norm_num [classifyMetrics]

/-- Claim C7: in trajectory analysis, a per-point resolution failure skips
only that point (resolved points all appear, failed ones never do); a file
whose final content cannot be resolved is excluded; a file with fewer than 3
resolved points is excluded; and a failure confined to one path never
changes the results of the other paths (the run never aborts). -/
theorem trajectory_failure_semantics (classify : String → String)
    (resolve resolve' : Resolver) (fpath final : String) (mods : Nat)
    (hashes sampled : List String) (head_files : List String)
    (rows : List (String × Nat)) (touching : String → List String)
    (top_n : Nat) :
    (resolve "HEAD" fpath = none →
      ∀ m hs, analyzeFile classify resolve fpath m hs = none)
    ∧ (resolve "HEAD" fpath = none →
        ∀ r, (fpath, r) ∉ run_trajectory_analysis classify resolve head_files
          rows touching top_n)
    ∧ (∀ e, e ∈ trajectoryOf resolve fpath final sampled 0 →
        ∃ c, resolve e.1 fpath = some c)
    ∧ (∀ k ch c, sampled.get? k = some ch → resolve ch fpath = some c →
        (ch, k, normalized_edit_distance c final) ∈
          trajectoryOf resolve fpath final sampled 0)
    ∧ (resolve "HEAD" fpath = some final →
        (trajectoryOf resolve fpath final (sampleCommits hashes) 0).length
            < 3 →
        analyzeFile classify resolve fpath mods hashes = none)
    ∧ ((∀ c p, p ≠ fpath → resolve c p = resolve' c p) →
        (run_trajectory_analysis classify resolve head_files rows touching
            top_n).filter (fun e => decide (e.1 ≠ fpath)) =
          (run_trajectory_analysis classify resolve' head_files rows touching
            top_n).filter (fun e => decide (e.1 ≠ fpath))) := by
  have hexc : resolve "HEAD" fpath = none →
      ∀ m hs, analyzeFile classify resolve fpath m hs = none := by
    intro hnone m hs
    simp [analyzeFile, hnone]
  refine ⟨hexc, ?_, ?_, ?_, ?_, ?_⟩
  · intro hnone r hmem
    simp only [run_trajectory_analysis] at hmem
    rcases List.mem_filterMap.mp hmem with ⟨fm, hfm, hsome⟩
    rcases Option.map_eq_some'.mp hsome with ⟨a, ha, hpair⟩
    have hfst : fm.1 = fpath := congrArg Prod.fst hpair
    rw [hfst] at ha
    rw [hexc hnone fm.2 (touching fpath)] at ha
    exact Option.noConfusion ha
  · intro e he
    exact trajectoryOf_resolves resolve fpath final sampled 0 e he
  · intro k ch c hget hres
    have hmem := trajectoryOf_mem_of_resolve resolve fpath final sampled k 0
      ch c hget hres
    simpa using hmem
  · intro hsome hlen
    simp only [analyzeFile, hsome]
    by_cases h3 : hashes.length < 3
    · rw [if_pos h3]
    · rw [if_neg h3, if_pos hlen]
  · intro hagree
    simp only [run_trajectory_analysis]
    exact targets_filter_ne classify resolve resolve' touching fpath hagree _

theorem trajectory_failure_semantics_witness :
    (analyzeFile wClassify wResolveNone "a.py" 5 ["h1", "h2", "h3"] = none)
    ∧ (("a.py", wResult) ∉ run_trajectory_analysis wClassify wResolveNone
        ["a.py"] [("a.py", 3)] (fun _ => ["h1", "h2"]) 50)
    ∧ (∃ c, wResolve "h2" "a.py" = some c)
    ∧ (("h2", 1, normalized_edit_distance "B" "F") ∈
        trajectoryOf wResolve "a.py" "F" ["h1", "h2"] 0)
    ∧ (analyzeFile wClassify wResolveHeadOnly "a.py" 5 ["h1", "h2", "h3"]
        = none)
    ∧ ((run_trajectory_analysis wClassify wResolve ["a.py"] [("a.py", 3)]
          (fun _ => ["h1", "h2"]) 50).filter
            (fun e => decide (e.1 ≠ "a.py")) =
        (run_trajectory_analysis wClassify wResolve ["a.py"] [("a.py", 3)]
          (fun _ => ["h1", "h2"]) 50).filter
            (fun e => decide (e.1 ≠ "a.py"))) := by
  have T1 := trajectory_failure_semantics wClassify wResolveNone wResolveNone
    "a.py" "F" 5 ["h1", "h2", "h3"] ["h1", "h2"] ["a.py"] [("a.py", 3)]
    (fun _ => ["h1", "h2"]) 50
  have T2 := trajectory_failure_semantics wClassify wResolve wResolve
    "a.py" "F" 5 ["h1", "h2", "h3"] ["h1", "h2"] ["a.py"] [("a.py", 3)]
    (fun _ => ["h1", "h2"]) 50
  have T3 := trajectory_failure_semantics wClassify wResolveHeadOnly
    wResolveHeadOnly "a.py" "F" 5 ["h1", "h2", "h3"] ["h1", "h2"] ["a.py"]
    [("a.py", 3)] (fun _ => ["h1", "h2"]) 50
  have hmem := T2.2.2.2.1 1 "h2" "B" (by rfl) (by rfl)
  refine ⟨T1.1 rfl 5 ["h1", "h2", "h3"], T1.2.1 rfl wResult,
    T2.2.2.1 _ hmem, hmem, ?_, T2.2.2.2.2.2 (fun _ _ _ => rfl)⟩
  refine T3.2.2.2.2.1 rfl ?_
  decide

/-- Claim C8: both analyses are deterministic functions of their inputs:
with the same classifier, resolver, touch queries and rows, the trajectory
analysis yields the identical mapping, and the thrash detection yields the
identical incident lists and counts. -/
theorem analyses_deterministic (classify classify' : String → String)
    (resolve resolve' : Resolver) (head_files : List String)
    (rows : List (String × Nat)) (touching touching' : String → List String)
    (top_n : Nat) (hc : ∀ p, classify p = classify' p)
    (hr : ∀ c p, resolve c p = resolve' c p)
    (ht : ∀ p, touching p = touching' p) :
    run_trajectory_analysis classify resolve head_files rows touching top_n =
      run_trajectory_analysis classify' resolve' head_files rows touching'
        top_n
    ∧ ∀ ft : List (String × List Touch),
        run_coordination_analysis classify ft =
          run_coordination_analysis classify' ft := by
  have hc' : classify = classify' := funext hc
  have hr' : resolve = resolve' := funext fun c => funext fun p => hr c p
  have ht' : touching = touching' := funext ht
  subst hc' hr' ht'
  exact ⟨rfl, fun _ => rfl⟩

theorem analyses_deterministic_witness :
    (run_trajectory_analysis wClassify wResolve ["a.py"] [("a.py", 3)]
        (fun _ => ["h1", "h2"]) 50 =
      run_trajectory_analysis wClassify wResolve ["a.py"] [("a.py", 3)]
        (fun _ => ["h1", "h2"]) 50)
    ∧ (run_coordination_analysis wClassify wFt =
        run_coordination_analysis wClassify wFt) :=
  ⟨(analyses_deterministic wClassify wClassify wResolve wResolve ["a.py"]
      [("a.py", 3)] (fun _ => ["h1", "h2"]) (fun _ => ["h1", "h2"]) 50
      (fun _ => rfl) (fun _ _ => rfl) (fun _ => rfl)).1,
    (analyses_deterministic wClassify wClassify wResolve wResolve ["a.py"]
      [("a.py", 3)] (fun _ => ["h1", "h2"]) (fun _ => ["h1", "h2"]) 50
      (fun _ => rfl) (fun _ _ => rfl) (fun _ => rfl)).2 wFt⟩

end CCC
